import Mathlib

/-!
# Wineing: control state propagation and the three worker loops

A shallow embedding of `src/main/c/wineing.cc`:

* the copy functions `t_to_g` and `g_to_t` over the control record `w_ctrl`;
* one iteration of the request loop of `cchan_in_thread`, and the loop itself
  over a finite sequence of received messages;
* the loop of `market_thread` as a step function over its program points;
* the receive callback `_ichan_out_in_copy` of `cchan_out_thread` with the
  1024 byte buffer it is called on.

Memory that a `char *` points to is a function from offsets to characters;
`memcpy` overwrites a prefix of it.  The request loop and the egress worker copy
into allocations of a fixed size (`WINEING_CTRL_DEFAULT_DATA_SIZE` bytes for the
data of a control record, 1024 bytes for a received response) without a test of
the length; there the capacity is carried along and a copy that does not fit
has no result.
-/

namespace Wineing

/-! ## Data model -/

/-- Values of `w_ctrl.cmd`, the constants `WINEING_CTRL_CMD_*`. -/
inductive Cmd where
  | INIT
  | MARKET_RUN
  | MARKET_STOP
  | SHUTDOWN
  deriving DecidableEq, Repr

/-- Memory behind a `char *`: the character at every offset. -/
abbrev Buf := Nat → Char

/-- The terminating byte of a C string. -/
def NUL : Char := Char.ofNat 0

/-- The record `w_ctrl`, in the field order of its initialisers `{cmd, data, size}`. -/
structure w_ctrl where
  cmd : Cmd
  data : Buf
  size : Nat

/-- C `memcpy(dst, src, n)`: the first `n` bytes of `dst` become those of `src`. -/
def memcpy (dst src : Buf) (n : Nat) : Buf :=
  fun i => if i < n then src i else dst i

/-- The memory `std::string::c_str()` points to: the characters, then `NUL`. -/
def c_str (s : List Char) : Buf :=
  fun i => s.getD i NUL

/-- The C string found at a pointer: the bytes before the first `NUL`, looking
at no more than `fuel` bytes from offset `i`. -/
def c_string (p : Buf) : Nat → Nat → List Char
  | _, 0 => []
  | i, fuel + 1 => if p i = NUL then [] else p i :: c_string p (i + 1) fuel

/-- The function `t_to_g` (lines 155-164): local to shared. -/
def t_to_g (t g : w_ctrl) : w_ctrl :=
  let shared : w_ctrl := { g with size := t.size }
  if 0 < t.size then
    { shared with data := memcpy shared.data t.data t.size }
  else
    shared

/-- The function `g_to_t` (lines 166-175): shared to local. -/
def g_to_t (t g : w_ctrl) : w_ctrl :=
  let loc : w_ctrl := { t with size := g.size }
  if 0 < g.size then
    { loc with data := memcpy loc.data g.data g.size }
  else
    loc

/-- The shared cell: `g_data` together with the version counter of `lazy.h`. -/
structure Cell where
  version : Int
  value : w_ctrl

/-- Modelled from the spec: `lazy_update_global_if_owner` of `core/lazy.h`, which
is not part of the source.  Spec 4.1, publish: "Copies newValue into the cell's
storage, then increments the version."  The copy is made by the copy function
the caller passes; the new version is returned. -/
def lazy_update_global_if_owner (_version : Int) (t : w_ctrl) (cell : Cell)
    (copy : w_ctrl → w_ctrl → w_ctrl) : Int × Cell :=
  let v := copy t cell.value
  (cell.version + 1, { version := cell.version + 1, value := v })

/-- Modelled from the spec: `lazy_update_local_if_changed` of `core/lazy.h`, which
is not part of the source.  Spec 4.1, refreshIfChanged: "Loads the cell's current
version; if it differs from localVersion, copies the cell's value into localValue
and updates localVersion to the observed version; returns the (possibly
unchanged) version." -/
def lazy_update_local_if_changed (version : Int) (t : w_ctrl) (cell : Cell)
    (copy : w_ctrl → w_ctrl → w_ctrl) : Int × w_ctrl :=
  if cell.version ≠ version then
    (cell.version, copy t cell.value)
  else
    (version, t)

/-! ## Control messages -/

/-- Kinds of control request, `Request::START`, `Request::STOP`, `Request::SHUTDOWN`. -/
inductive RequestType where
  | START
  | STOP
  | SHUTDOWN
  deriving DecidableEq, Repr

/-- Status of a control response. -/
inductive ResponseType where
  | OK
  | ERR
  | ERR_MARKET_RUNNING
  deriving DecidableEq, Repr

/-- The logical content of `WineingCtrlProto::Request`. -/
structure Request where
  requestid : Int
  type : RequestType
  tape_file : Option (List Char)
  deriving DecidableEq

/-- The logical content of `WineingCtrlProto::Response`. -/
structure Response where
  requestid : Int
  type : ResponseType
  err_text : Option (List Char)
  deriving DecidableEq

/-- The part of `ctx->conf` the request loop reads. -/
structure w_conf where
  tape_basedir : List Char

/-! ## The request loop of `cchan_in_thread` -/

/-- The variables of `cchan_in_thread` that live across iterations. -/
structure Ingress where
  t_version : Int
  t_data : w_ctrl
  running : Bool

/-- What one iteration leaves behind and what it did. -/
structure IterOut where
  s : Ingress
  g : Cell
  sent : List Response       -- responses passed to chan_send on the in-process channel
  published : List w_ctrl    -- snapshots passed to lazy_update_global_if_owner
  signalled : Bool           -- whether pthread_cond_signal was called

/-- The single quote character. -/
def quote : Char := Char.ofNat 39

/-- Text of the error for a start request while running (line 250). -/
def err_running : List Char := "Already in RUNNING state.".toList

/-- Text of the error for a missing tape file (line 270). -/
def err_not_found (tape : List Char) : List Char :=
  "File ".toList ++ [quote] ++ tape ++ [quote] ++ " not found.".toList

/-- The calls of lines 286-289, 298-301 and 306-309: publish `t` and keep the
returned version.  `t_to_g` copies `t.size` bytes (line 162) into the data of
`g_data`, an allocation of `WINEING_CTRL_DEFAULT_DATA_SIZE` bytes (line 55); a
copy that does not fit writes past its end and has no result. -/
def publish (WINEING_CTRL_DEFAULT_DATA_SIZE : Nat) (s : Ingress) (g : Cell) (t : w_ctrl) :
    Option (Ingress × Cell) :=
  if t.size ≤ WINEING_CTRL_DEFAULT_DATA_SIZE then
    let r := lazy_update_global_if_owner s.t_version t g t_to_g
    some ({ s with t_data := t, t_version := r.1 }, r.2)
  else
    none

/-- One iteration of `while (running)` (lines 220-329).  `rc` and `req` are what
`chan_recv` returned and decoded; `wininf_file_exists` is the check of the feed
adapter, negative when the file is not there.  The constant
`WINEING_CTRL_DEFAULT_DATA_SIZE` of `wineing.h`, the size of the allocation
behind `t_data.data` (line 195), is not part of the source and is a parameter.
The `memcpy` of lines 279-281 has no test of the length: when the path and its
NUL do not fit it writes past the end of the allocation, and the iteration has
no result. -/
def cchan_in_iter (WINEING_CTRL_DEFAULT_DATA_SIZE : Nat) (conf : w_conf)
    (wininf_file_exists : List Char → Int)
    (s : Ingress) (g : Cell) (rc : Int) (req : Request) : Option IterOut :=
  if 0 < rc then
    let res : Response := { requestid := req.requestid, type := ResponseType.OK, err_text := none }
    match req.type with
    | RequestType.START =>
      if s.t_data.cmd = Cmd.MARKET_RUN then
        some { s := s, g := g,
               sent := [{ res with type := ResponseType.ERR_MARKET_RUNNING,
                                   err_text := some err_running }],
               published := [], signalled := false }
      else
        let t0 : w_ctrl := { s.t_data with size := 0 }
        match req.tape_file with
        | some f =>
          let tape := conf.tape_basedir ++ f
          if wininf_file_exists tape < 0 then
            some { s := { s with t_data := t0 }, g := g,
                   sent := [{ res with type := ResponseType.ERR,
                                       err_text := some (err_not_found tape) }],
                   published := [], signalled := false }
          else if tape.length + 1 ≤ WINEING_CTRL_DEFAULT_DATA_SIZE then
            let t1 : w_ctrl :=
              { t0 with size := tape.length + 1,
                        data := memcpy t0.data (c_str tape) (tape.length + 1) }
            let t2 : w_ctrl := { t1 with cmd := Cmd.MARKET_RUN }
            (publish WINEING_CTRL_DEFAULT_DATA_SIZE s g t2).map fun p =>
              { s := p.1, g := p.2, sent := [res], published := [t2], signalled := true }
          else
            none
        | none =>
          let t2 : w_ctrl := { t0 with cmd := Cmd.MARKET_RUN }
          (publish WINEING_CTRL_DEFAULT_DATA_SIZE s g t2).map fun p =>
            { s := p.1, g := p.2, sent := [res], published := [t2], signalled := true }
    | RequestType.STOP =>
      let t2 : w_ctrl := { s.t_data with cmd := Cmd.MARKET_STOP }
      (publish WINEING_CTRL_DEFAULT_DATA_SIZE s g t2).map fun p =>
        { s := p.1, g := p.2, sent := [res], published := [t2], signalled := false }
    | RequestType.SHUTDOWN =>
      let t2 : w_ctrl := { s.t_data with cmd := Cmd.SHUTDOWN }
      (publish WINEING_CTRL_DEFAULT_DATA_SIZE s g t2).map fun p =>
        { s := { p.1 with running := false }, g := p.2, sent := [res], published := [t2],
          signalled := false }
  else
    some { s := s, g := g, sent := [], published := [], signalled := false }

/-- What the loop leaves behind and what it did, over all iterations. -/
structure LoopOut where
  s : Ingress
  g : Cell
  sent : List Response
  published : List w_ctrl

/-- The loop `while (running)` over the messages `chan_recv` delivers, in order.
An iteration without a result leaves the loop without one. -/
def cchan_in_loop (WINEING_CTRL_DEFAULT_DATA_SIZE : Nat) (conf : w_conf)
    (wininf_file_exists : List Char → Int) :
    Ingress → Cell → List (Int × Request) → Option LoopOut
  | s, g, [] => some { s := s, g := g, sent := [], published := [] }
  | s, g, m :: rest =>
    if s.running then
      match cchan_in_iter WINEING_CTRL_DEFAULT_DATA_SIZE conf wininf_file_exists s g m.1 m.2 with
      | none => none
      | some o =>
        match cchan_in_loop WINEING_CTRL_DEFAULT_DATA_SIZE conf wininf_file_exists o.s o.g rest with
        | none => none
        | some r =>
          some { r with sent := o.sent ++ r.sent, published := o.published ++ r.published }
    else
      some { s := s, g := g, sent := [], published := [] }

/-! ## The loop of `market_thread` -/

/-- Program points of `market_thread` (lines 370-402). -/
inductive Pc where
  | wait      -- blocked in pthread_cond_wait, lines 373-375
  | refresh   -- top of the inner loop, lines 381-388
  | adapter   -- inside wininf_nxcore_run, line 390
  | check     -- the test for shutdown, line 394
  | exited    -- after the outer loop, lines 399-402
  deriving DecidableEq, Repr

/-- The variables of `market_thread` and where it stands. -/
structure Market where
  pc : Pc
  t_version : Int
  t_data : w_ctrl

/-- One step of `market_thread`, given the shared cell as it is when the step
is taken.  The second component is the third argument of `wininf_nxcore_run`
when the step calls it.  A step from `wait` is the return of
`pthread_cond_wait`. -/
def market_step (g : Cell) (m : Market) : Market × Option Buf :=
  match m.pc with
  | Pc.wait => ({ m with pc := Pc.refresh }, none)
  | Pc.refresh =>
    let r := lazy_update_local_if_changed m.t_version m.t_data g g_to_t
    if r.2.cmd = Cmd.MARKET_RUN then
      ({ pc := Pc.adapter, t_version := r.1, t_data := r.2 }, some r.2.data)
    else
      ({ pc := Pc.check, t_version := r.1, t_data := r.2 }, none)
  | Pc.adapter => ({ m with pc := Pc.check }, none)
  | Pc.check =>
    if m.t_data.cmd = Cmd.SHUTDOWN then
      -- break leaves the inner while(1); the outer while(1) starts over
      ({ m with pc := Pc.wait }, none)
    else
      ({ m with pc := Pc.refresh }, none)
  | Pc.exited => (m, none)

/-- Several steps of `market_thread`, one per cell state seen. -/
def market_steps : List Cell → Market → Market
  | [], m => m
  | g :: gs, m => market_steps gs (market_step g m).1

/-- An allocation of `cap` bytes. -/
structure OutBuf where
  cap : Nat
  mem : Buf

/-- The callback `_ichan_out_in_copy` (lines 408-412): `size` bytes are copied
into `out_buffer` and 0 is returned.  A copy longer than the allocation writes
past its end and has no result. -/
def _ichan_out_in_copy (buffer : Buf) (size : Nat) (out_buffer : OutBuf) : Option (OutBuf × Int) :=
  if size ≤ out_buffer.cap then
    some ({ out_buffer with mem := memcpy out_buffer.mem buffer size }, 0)
  else
    none

/-- Lines 468-471: a buffer of 1024 bytes is allocated and the received message
is decoded into it by `_ichan_out_in_copy`. -/
def cchan_out_recv (msg : Buf) (size : Nat) : Option (OutBuf × Int) :=
  _ichan_out_in_copy msg size { cap := 1024, mem := fun _ => NUL }

/-- Size of a protocol buffers varint holding a 64 bit value. -/
def pb_varint_size (n : Nat) : Nat :=
  if n < 2 ^ 7 then 1 else if n < 2 ^ 14 then 2 else if n < 2 ^ 21 then 3
  else if n < 2 ^ 28 then 4 else if n < 2 ^ 35 then 5 else if n < 2 ^ 42 then 6
  else if n < 2 ^ 49 then 7 else if n < 2 ^ 56 then 8 else if n < 2 ^ 63 then 9 else 10

/-- Encoded number of a response status. -/
def ResponseType.code : ResponseType → Nat
  | ResponseType.OK => 0
  | ResponseType.ERR => 1
  | ResponseType.ERR_MARKET_RUNNING => 2

/-- Modelled from the spec: `Response::ByteSize` of the generated
`WineingCtrlProto.pb.h`, which is not part of the source.  Spec 6: the fields
requestId, status and error text "serialized with a compact binary encoding";
here the protocol buffers wire format, one tag byte per field, varints for the
two numbers and a length-delimited error text. -/
def pb_ByteSize (r : Response) : Nat :=
  (1 + pb_varint_size (r.requestid % 2 ^ 64).toNat) + (1 + pb_varint_size r.type.code) +
    (match r.err_text with
     | none => 0
     | some t => 1 + pb_varint_size t.length + t.length)

/-! ## Concrete inputs -/

/-- A configuration with base directory `/t/`. -/
def conf0 : w_conf := { tape_basedir := "/t/".toList }

/-- A file check under which every file is there. -/
def fe_all : List Char → Int := fun _ => 0

/-- A file check under which no file is there. -/
def fe_none : List Char → Int := fun _ => -1

/-- The control record every thread starts from (lines 193-197, 347-351). -/
def ctrl_init : w_ctrl := { cmd := Cmd.INIT, data := fun _ => NUL, size := 0 }

/-- The request loop before its first iteration. -/
def s_init : Ingress := { t_version := 0, t_data := ctrl_init, running := true }

/-- The shared cell at start (lines 53-57). -/
def g_init : Cell := { version := 0, value := ctrl_init }

/-- A held snapshot: running from the tape `/t/a`. -/
def ctrl_run_a : w_ctrl := { cmd := Cmd.MARKET_RUN, data := c_str "/t/a".toList, size := 5 }

/-- A held snapshot: stopped, the tape `/t/a` of the last run still in place. -/
def ctrl_stop_a : w_ctrl := { cmd := Cmd.MARKET_STOP, data := c_str "/t/a".toList, size := 5 }

/-- Start from the tape file `a`. -/
def req_start_a : Request := { requestid := 1, type := RequestType.START, tape_file := some "a".toList }

/-- Start in real time. -/
def req_start : Request := { requestid := 3, type := RequestType.START, tape_file := none }

/-- Stop. -/
def req_stop : Request := { requestid := 2, type := RequestType.STOP, tape_file := none }

/-- Shut down. -/
def req_shutdown : Request := { requestid := 4, type := RequestType.SHUTDOWN, tape_file := none }

/-- The request loop while stopped after a run from the tape `/t/a`. -/
def s_stop_a : Ingress := { t_version := 2, t_data := ctrl_stop_a, running := true }

/-- The shared cell after that run was started and stopped. -/
def g_stop_a : Cell := { version := 2, value := { ctrl_init with data := c_str "/t/a".toList, size := 5 } }

/-- A value for `WINEING_CTRL_DEFAULT_DATA_SIZE` in the concrete runs. -/
def cap0 : Nat := 1024

/-- Start from a tape file whose name has 1100 characters. -/
def req_start_long : Request :=
  { requestid := 5, type := RequestType.START, tape_file := some (List.replicate 1100 'a') }

end Wineing

namespace Wineing

/-! ## The copy functions -/

theorem memcpy_lt (dst src : Buf) (n i : Nat) (h : i < n) : memcpy dst src n i = src i := by
  simp [memcpy, h]

theorem t_to_g_cmd (t g : w_ctrl) : (t_to_g t g).cmd = g.cmd := by
  unfold t_to_g
  split <;> rfl

theorem t_to_g_size (t g : w_ctrl) : (t_to_g t g).size = t.size := by
  unfold t_to_g
  split <;> rfl

theorem t_to_g_data (t g : w_ctrl) (i : Nat) (h : i < t.size) :
    (t_to_g t g).data i = t.data i := by
  have h0 : 0 < t.size := by omega
  simp [t_to_g, h0, memcpy, h]

theorem g_to_t_cmd (t g : w_ctrl) : (g_to_t t g).cmd = t.cmd := by
  unfold g_to_t
  split <;> rfl

theorem g_to_t_size (t g : w_ctrl) : (g_to_t t g).size = g.size := by
  unfold g_to_t
  split <;> rfl

theorem g_to_t_data (t g : w_ctrl) (i : Nat) (h : i < g.size) :
    (g_to_t t g).data i = g.data i := by
  have h0 : 0 < g.size := by omega
  simp [g_to_t, h0, memcpy, h]

/-- With size 0 nothing is copied: the bytes of the last source stay in place. -/
theorem g_to_t_data_of_size_zero (t g : w_ctrl) (h : g.size = 0) :
    (g_to_t t g).data = t.data := by
  simp [g_to_t, h]

/-- Publishing and refreshing carries the source over: its size and its first
`size` bytes.  The command of the reader is the one it had. -/
theorem publish_refresh_source (s r : w_ctrl) (cell : Cell) (v w : Int)
    (hstale : w ≠ cell.version + 1) :
    (lazy_update_local_if_changed w r (lazy_update_global_if_owner v s cell t_to_g).2 g_to_t).2.size
        = s.size ∧
    (∀ i, i < s.size →
      (lazy_update_local_if_changed w r (lazy_update_global_if_owner v s cell t_to_g).2 g_to_t).2.data i
        = s.data i) ∧
    (lazy_update_local_if_changed w r (lazy_update_global_if_owner v s cell t_to_g).2 g_to_t).2.cmd
        = r.cmd := by
  have hne : cell.version + 1 ≠ w := fun h => hstale h.symm
  refine ⟨?_, ?_, ?_⟩
  · simp [lazy_update_local_if_changed, lazy_update_global_if_owner, hne, g_to_t_size, t_to_g_size]
  · intro i hi
    simp only [lazy_update_local_if_changed, lazy_update_global_if_owner, hne, ne_eq,
      not_false_eq_true, if_true]
    rw [g_to_t_data _ _ i (by rw [t_to_g_size]; exact hi), t_to_g_data _ _ i hi]
  · simp [lazy_update_local_if_changed, lazy_update_global_if_owner, hne, g_to_t_cmd]

/-- C1, as the code has it: the owner holds the snapshot (MARKET_RUN, "/t/a"),
publishes it with `t_to_g` into the initial cell, and a reader with the stale
version 0 refreshes with `g_to_t`.  The reader gets the new version, the size 5
and the bytes of "/t/a", but its command is still INIT, not the MARKET_RUN of
the published snapshot: neither copy function touches `cmd`. -/
theorem publish_refresh_loses_command :
    (lazy_update_local_if_changed 0 ctrl_init
        (lazy_update_global_if_owner 0 ctrl_run_a g_init t_to_g).2 g_to_t).1 = 1 ∧
    (lazy_update_local_if_changed 0 ctrl_init
        (lazy_update_global_if_owner 0 ctrl_run_a g_init t_to_g).2 g_to_t).2.size = ctrl_run_a.size ∧
    c_string (lazy_update_local_if_changed 0 ctrl_init
        (lazy_update_global_if_owner 0 ctrl_run_a g_init t_to_g).2 g_to_t).2.data 0 16
      = "/t/a".toList ∧
    (lazy_update_global_if_owner 0 ctrl_run_a g_init t_to_g).2.value.cmd = Cmd.INIT ∧
    (lazy_update_local_if_changed 0 ctrl_init
        (lazy_update_global_if_owner 0 ctrl_run_a g_init t_to_g).2 g_to_t).2.cmd = Cmd.INIT ∧
    (lazy_update_local_if_changed 0 ctrl_init
        (lazy_update_global_if_owner 0 ctrl_run_a g_init t_to_g).2 g_to_t).2.cmd ≠ ctrl_run_a.cmd := by
  decide

/-! ## One iteration of the request loop -/

theorem c_str_lt (tape : List Char) (i : Nat) (h : i < tape.length) : c_str tape i = tape[i] := by
  simp [c_str, List.getD_eq_getElem, h]

theorem c_str_length (tape : List Char) : c_str tape tape.length = NUL := by
  simp [c_str]

/-- A publish has a result exactly when the snapshot fits, and then it is the
result of `lazy_update_global_if_owner` with `t_to_g`. -/
theorem publish_map (cap : Nat) (s : Ingress) (g : Cell) (t : w_ctrl)
    (F : Ingress × Cell → IterOut) (o : IterOut)
    (h : (publish cap s g t).map F = some o) :
    t.size ≤ cap ∧
    o = F ({ s with t_data := t, t_version := g.version + 1 },
           { version := g.version + 1, value := t_to_g t g.value }) := by
  unfold publish at h
  by_cases hfit : t.size ≤ cap
  · simp only [hfit, if_true, lazy_update_global_if_owner, Option.map_some'] at h
    exact ⟨hfit, (Option.some.inj h).symm⟩
  · simp [hfit] at h

theorem publish_fits (cap : Nat) (s : Ingress) (g : Cell) (t : w_ctrl) (h : t.size ≤ cap) :
    publish cap s g t =
      some ({ s with t_data := t, t_version := g.version + 1 },
            { version := g.version + 1, value := t_to_g t g.value }) := by
  simp [publish, h, lazy_update_global_if_owner]

/-- No iteration writes the command of the shared cell: whatever the request,
the cell has afterwards the command it had before. -/
theorem iter_cell_cmd (cap : Nat) (conf : w_conf) (fe : List Char → Int) (s : Ingress) (g : Cell)
    (rc : Int) (req : Request) (o : IterOut)
    (h : cchan_in_iter cap conf fe s g rc req = some o) :
    o.g.value.cmd = g.value.cmd := by
  unfold cchan_in_iter at h
  by_cases hrc : 0 < rc
  · simp only [hrc, if_true] at h
    cases hty : req.type with
    | START =>
      simp only [hty] at h
      by_cases hc : s.t_data.cmd = Cmd.MARKET_RUN
      · simp only [hc, if_true] at h
        cases h
        rfl
      · simp only [hc, if_false] at h
        cases hf : req.tape_file with
        | none =>
          simp only [hf] at h
          obtain ⟨_, rfl⟩ := publish_map _ _ _ _ _ _ h
          exact t_to_g_cmd _ _
        | some f =>
          simp only [hf] at h
          by_cases hm : fe (conf.tape_basedir ++ f) < 0
          · simp only [hm, if_true] at h
            cases h
            rfl
          · simp only [hm, if_false] at h
            by_cases hfit : (conf.tape_basedir ++ f).length + 1 ≤ cap
            · simp only [hfit, if_true] at h
              obtain ⟨_, rfl⟩ := publish_map _ _ _ _ _ _ h
              exact t_to_g_cmd _ _
            · rw [if_neg hfit] at h
              cases h
    | STOP =>
      simp only [hty] at h
      obtain ⟨_, rfl⟩ := publish_map _ _ _ _ _ _ h
      exact t_to_g_cmd _ _
    | SHUTDOWN =>
      simp only [hty] at h
      obtain ⟨_, rfl⟩ := publish_map _ _ _ _ _ _ h
      exact t_to_g_cmd _ _
  · simp only [hrc, if_false] at h
    cases h
    rfl

/-- Whenever an iteration has a result: for a decoded request exactly one
response was passed to `chan_send`, with the request id of the request; for a
message that did not decode none was, and nothing changed. -/
theorem response_identity_of_result (cap : Nat) (conf : w_conf) (fe : List Char → Int)
    (s : Ingress) (g : Cell) (rc : Int) (req : Request) (o : IterOut)
    (h : cchan_in_iter cap conf fe s g rc req = some o) :
    (0 < rc → ∃ res, o.sent = [res] ∧ res.requestid = req.requestid) ∧
    (¬ 0 < rc → o.sent = [] ∧ o.s = s ∧ o.g = g ∧ o.published = []) := by
  unfold cchan_in_iter at h
  by_cases hrc : 0 < rc
  · refine ⟨fun _ => ?_, fun hn => absurd hrc hn⟩
    simp only [hrc, if_true] at h
    cases hty : req.type with
    | START =>
      simp only [hty] at h
      by_cases hc : s.t_data.cmd = Cmd.MARKET_RUN
      · simp only [hc, if_true] at h
        cases h
        exact ⟨_, rfl, rfl⟩
      · simp only [hc, if_false] at h
        cases hf : req.tape_file with
        | none =>
          simp only [hf] at h
          obtain ⟨_, rfl⟩ := publish_map _ _ _ _ _ _ h
          exact ⟨_, rfl, rfl⟩
        | some f =>
          simp only [hf] at h
          by_cases hm : fe (conf.tape_basedir ++ f) < 0
          · simp only [hm, if_true] at h
            cases h
            exact ⟨_, rfl, rfl⟩
          · simp only [hm, if_false] at h
            by_cases hfit : (conf.tape_basedir ++ f).length + 1 ≤ cap
            · simp only [hfit, if_true] at h
              obtain ⟨_, rfl⟩ := publish_map _ _ _ _ _ _ h
              exact ⟨_, rfl, rfl⟩
            · rw [if_neg hfit] at h
              cases h
    | STOP =>
      simp only [hty] at h
      obtain ⟨_, rfl⟩ := publish_map _ _ _ _ _ _ h
      exact ⟨_, rfl, rfl⟩
    | SHUTDOWN =>
      simp only [hty] at h
      obtain ⟨_, rfl⟩ := publish_map _ _ _ _ _ _ h
      exact ⟨_, rfl, rfl⟩
  · refine ⟨fun hp => absurd hp hrc, fun _ => ?_⟩
    simp only [hrc, if_false] at h
    cases h
    exact ⟨rfl, rfl, rfl, rfl⟩

/-- An iteration has a result when the snapshot held fits its allocation and so
does the path of the request with its NUL. -/
theorem iter_result_of_fits (cap : Nat) (conf : w_conf) (fe : List Char → Int)
    (s : Ingress) (g : Cell) (rc : Int) (req : Request)
    (hs : s.t_data.size ≤ cap)
    (hf : ∀ f, req.tape_file = some f → (conf.tape_basedir ++ f).length + 1 ≤ cap) :
    ∃ o, cchan_in_iter cap conf fe s g rc req = some o := by
  unfold cchan_in_iter
  by_cases hrc : 0 < rc
  · simp only [hrc, if_true]
    cases hty : req.type with
    | START =>
      simp only []
      by_cases hc : s.t_data.cmd = Cmd.MARKET_RUN
      · simp [hc]
      · simp only [hc, if_false]
        cases hq : req.tape_file with
        | none =>
          simp only []
          rw [publish_fits _ _ _ _ (Nat.zero_le _)]
          exact ⟨_, rfl⟩
        | some f =>
          simp only []
          by_cases hm : fe (conf.tape_basedir ++ f) < 0
          · simp [hm]
          · have hfit := hf f hq
            simp only [hm, if_false, hfit, if_true]
            rw [publish_fits _ _ _ _ hfit]
            exact ⟨_, rfl⟩
    | STOP =>
      simp only []
      rw [publish_fits cap s g { cmd := Cmd.MARKET_STOP, data := s.t_data.data, size := s.t_data.size } hs]
      exact ⟨_, rfl⟩
    | SHUTDOWN =>
      simp only []
      rw [publish_fits cap s g { cmd := Cmd.SHUTDOWN, data := s.t_data.data, size := s.t_data.size } hs]
      exact ⟨_, rfl⟩
  · simp [hrc]

/-- An accepted START with a tape file that fits: the response is OK, the local
snapshot gets MARKET_RUN and the path with its NUL, it is passed to
`lazy_update_global_if_owner`, and the cell has the next version and the size
and bytes of the snapshot, but the command it had before. -/
theorem start_accepted_effect (cap : Nat) (conf : w_conf) (fe : List Char → Int) (s : Ingress)
    (g : Cell) (rc : Int) (req : Request) (f : List Char)
    (hrc : 0 < rc) (hty : req.type = RequestType.START)
    (hcmd : s.t_data.cmd ≠ Cmd.MARKET_RUN)
    (hf : req.tape_file = some f) (hex : ¬ fe (conf.tape_basedir ++ f) < 0)
    (hfit : (conf.tape_basedir ++ f).length + 1 ≤ cap) :
    ∃ o, cchan_in_iter cap conf fe s g rc req = some o ∧
      o.sent = [{ requestid := req.requestid, type := ResponseType.OK, err_text := none }] ∧
      o.s.t_data.cmd = Cmd.MARKET_RUN ∧
      o.s.t_data.size = (conf.tape_basedir ++ f).length + 1 ∧
      (∀ i (h : i < (conf.tape_basedir ++ f).length),
        o.s.t_data.data i = (conf.tape_basedir ++ f)[i]) ∧
      o.s.t_data.data (conf.tape_basedir ++ f).length = NUL ∧
      o.published = [o.s.t_data] ∧
      o.g.version = g.version + 1 ∧ o.s.t_version = g.version + 1 ∧
      o.g.value.size = o.s.t_data.size ∧
      (∀ i, i < o.s.t_data.size → o.g.value.data i = o.s.t_data.data i) ∧
      o.g.value.cmd = g.value.cmd := by
  have e : cchan_in_iter cap conf fe s g rc req =
      some { s := { s with t_data := { cmd := Cmd.MARKET_RUN,
                                       data := memcpy s.t_data.data (c_str (conf.tape_basedir ++ f))
                                         ((conf.tape_basedir ++ f).length + 1),
                                       size := (conf.tape_basedir ++ f).length + 1 },
                           t_version := g.version + 1 },
             g := { version := g.version + 1,
                    value := t_to_g { cmd := Cmd.MARKET_RUN,
                                      data := memcpy s.t_data.data (c_str (conf.tape_basedir ++ f))
                                        ((conf.tape_basedir ++ f).length + 1),
                                      size := (conf.tape_basedir ++ f).length + 1 } g.value },
             sent := [{ requestid := req.requestid, type := ResponseType.OK, err_text := none }],
             published := [{ cmd := Cmd.MARKET_RUN,
                             data := memcpy s.t_data.data (c_str (conf.tape_basedir ++ f))
                               ((conf.tape_basedir ++ f).length + 1),
                             size := (conf.tape_basedir ++ f).length + 1 }],
             signalled := true } := by
    unfold cchan_in_iter
    simp only [hrc, if_true, hty, hcmd, if_false, hf, hex]
    rw [if_pos hfit, publish_fits _ _ _ _ hfit]
    rfl
  refine ⟨_, e, rfl, rfl, rfl, ?_, ?_, rfl, rfl, rfl, ?_, ?_, ?_⟩
  · intro i h
    show memcpy _ _ _ i = _
    rw [memcpy_lt _ _ _ _ (by omega), c_str_lt _ _ h]
  · show memcpy _ _ _ _ = _
    rw [memcpy_lt _ _ _ _ (by omega), c_str_length]
  · show (t_to_g _ _).size = _
    rw [t_to_g_size]
  · intro i hi
    exact t_to_g_data _ _ i hi
  · exact t_to_g_cmd _ _

/-- C2, as the code has it: from the initial state, with 1024 bytes behind each
control record, a decoded START with the tape file "a", which is there under the
base directory "/t/", is answered with OK; the local snapshot gets MARKET_RUN,
size 5 and the bytes of "/t/a", and is passed to `lazy_update_global_if_owner`;
the cell then has version 1, size 5 and those bytes, but its command is INIT,
not the MARKET_RUN of the snapshot: `t_to_g` does not copy `cmd`.  Whatever the
size of the allocations, the cell does not get the command MARKET_RUN. -/
theorem start_accepted_cell_keeps_command :
    (cchan_in_iter cap0 conf0 fe_all s_init g_init 1 req_start_a).map (fun o => o.sent)
      = some [{ requestid := 1, type := ResponseType.OK, err_text := none }] ∧
    (cchan_in_iter cap0 conf0 fe_all s_init g_init 1 req_start_a).map (fun o => o.s.t_data.cmd)
      = some Cmd.MARKET_RUN ∧
    (cchan_in_iter cap0 conf0 fe_all s_init g_init 1 req_start_a).map (fun o => o.s.t_data.size)
      = some 5 ∧
    (cchan_in_iter cap0 conf0 fe_all s_init g_init 1 req_start_a).map
        (fun o => c_string o.s.t_data.data 0 16) = some "/t/a".toList ∧
    (cchan_in_iter cap0 conf0 fe_all s_init g_init 1 req_start_a).map
        (fun o => o.published.map (fun t => t.cmd)) = some [Cmd.MARKET_RUN] ∧
    (cchan_in_iter cap0 conf0 fe_all s_init g_init 1 req_start_a).map (fun o => o.g.version)
      = some 1 ∧
    (cchan_in_iter cap0 conf0 fe_all s_init g_init 1 req_start_a).map (fun o => o.g.value.size)
      = some 5 ∧
    (cchan_in_iter cap0 conf0 fe_all s_init g_init 1 req_start_a).map
        (fun o => c_string o.g.value.data 0 16) = some "/t/a".toList ∧
    (cchan_in_iter cap0 conf0 fe_all s_init g_init 1 req_start_a).map (fun o => o.g.value.cmd)
      = some Cmd.INIT ∧
    (cchan_in_iter cap0 conf0 fe_all s_init g_init 1 req_start_a).map (fun o => o.g.value.cmd)
      ≠ (cchan_in_iter cap0 conf0 fe_all s_init g_init 1 req_start_a).map (fun o => o.s.t_data.cmd) ∧
    (∀ cap : Nat,
      (cchan_in_iter cap conf0 fe_all s_init g_init 1 req_start_a).map (fun o => o.g.value.cmd)
        ≠ some Cmd.MARKET_RUN) := by
  have hall : ∀ cap : Nat,
      (cchan_in_iter cap conf0 fe_all s_init g_init 1 req_start_a).map (fun o => o.g.value.cmd)
        ≠ some Cmd.MARKET_RUN := ?_
  · repeat' apply And.intro
    all_goals first | exact hall | decide
  intro cap h
  cases hi : cchan_in_iter cap conf0 fe_all s_init g_init 1 req_start_a with
  | none => simp [hi] at h
  | some o =>
    have hc := iter_cell_cmd cap conf0 fe_all s_init g_init 1 req_start_a o hi
    simp only [hi, Option.map_some', Option.some.injEq] at h
    rw [hc] at h
    revert h
    decide

/-- C3: a decoded START while the command is MARKET_RUN, with or without a tape
file, is answered with ERR_MARKET_RUNNING and the text "Already in RUNNING
state."; the variables of the loop and the shared cell are what they were and
nothing is passed to `lazy_update_global_if_owner`.  Nothing is copied on this
path, so the iteration has this result whatever the size of the allocations. -/
theorem start_while_running (cap : Nat) (conf : w_conf) (fe : List Char → Int) (s : Ingress)
    (g : Cell) (rc : Int) (req : Request)
    (hrc : 0 < rc) (hty : req.type = RequestType.START)
    (hcmd : s.t_data.cmd = Cmd.MARKET_RUN) :
    ∃ o, cchan_in_iter cap conf fe s g rc req = some o ∧
      o.sent = [{ requestid := req.requestid, type := ResponseType.ERR_MARKET_RUNNING,
                  err_text := some "Already in RUNNING state.".toList }] ∧
      o.s = s ∧
      o.g = g ∧
      o.published = [] ∧
      o.signalled = false := by
  refine ⟨{ s := s, g := g,
            sent := [{ requestid := req.requestid, type := ResponseType.ERR_MARKET_RUNNING,
                       err_text := some err_running }],
            published := [], signalled := false }, ?_, rfl, rfl, rfl, rfl, rfl⟩
  unfold cchan_in_iter
  simp only [hrc, if_true, hty, hcmd]

/-- C3 at a concrete input: START with the tape file "a" while running. -/
theorem start_while_running_witness :
    ∃ o, cchan_in_iter cap0 conf0 fe_all { s_init with t_data := ctrl_run_a } g_init 1 req_start_a
        = some o ∧
      o.sent = [{ requestid := 1, type := ResponseType.ERR_MARKET_RUNNING,
                  err_text := some "Already in RUNNING state.".toList }] ∧
      o.s = { s_init with t_data := ctrl_run_a } ∧
      o.g = g_init ∧
      o.published = [] ∧
      o.signalled = false :=
  start_while_running cap0 conf0 fe_all { s_init with t_data := ctrl_run_a } g_init 1
    req_start_a (by decide) rfl rfl

/-- A decoded START, not running, with a tape file that is not there: the answer
is ERR with the text naming the file; command, bytes, version, cell are what
they were and nothing is published, but the size of the local snapshot is 0.
Nothing is copied on this path. -/
theorem start_missing_source (cap : Nat) (conf : w_conf) (fe : List Char → Int) (s : Ingress)
    (g : Cell) (rc : Int) (req : Request) (f : List Char)
    (hrc : 0 < rc) (hty : req.type = RequestType.START)
    (hcmd : s.t_data.cmd ≠ Cmd.MARKET_RUN)
    (hf : req.tape_file = some f) (hmiss : fe (conf.tape_basedir ++ f) < 0) :
    ∃ o, cchan_in_iter cap conf fe s g rc req = some o ∧
      o.sent = [{ requestid := req.requestid, type := ResponseType.ERR,
                  err_text := some ("File ".toList ++ [quote] ++ (conf.tape_basedir ++ f) ++ [quote]
                    ++ " not found.".toList) }] ∧
      o.s.t_data.cmd = s.t_data.cmd ∧
      o.s.t_data.data = s.t_data.data ∧
      o.s.t_data.size = 0 ∧
      o.s.t_version = s.t_version ∧
      o.g = g ∧
      o.published = [] := by
  refine ⟨{ s := { s with t_data := { s.t_data with size := 0 } }, g := g,
            sent := [{ requestid := req.requestid, type := ResponseType.ERR,
                       err_text := some (err_not_found (conf.tape_basedir ++ f)) }],
            published := [], signalled := false }, ?_, rfl, rfl, rfl, rfl, rfl, rfl, rfl⟩
  unfold cchan_in_iter
  simp only [hrc, if_true, hty, hcmd, if_false, hf, hmiss]

/-- C4, as the code has it: stopped after a run from "/t/a" (size 5), a START
naming the missing file "a" is answered with ERR and "File '/t/a' not found.",
and nothing is published, but the size of the local snapshot is 0 afterwards, not
the 5 it was: line 256 clears it before the file is looked for.  Nothing is
copied on this path, so this holds whatever the size of the allocations. -/
theorem start_missing_source_clears_size (cap : Nat) :
    ∃ o, cchan_in_iter cap conf0 fe_none s_stop_a g_stop_a 1 req_start_a = some o ∧
      o.sent = [{ requestid := 1, type := ResponseType.ERR,
                  err_text := some ("File ".toList ++ [quote] ++ "/t/a".toList ++ [quote]
                    ++ " not found.".toList) }] ∧
      o.published = [] ∧
      o.s.t_data.cmd = Cmd.MARKET_STOP ∧
      s_stop_a.t_data.size = 5 ∧
      o.s.t_data.size = 0 ∧
      o.s.t_data.size ≠ s_stop_a.t_data.size := by
  obtain ⟨o, ho, h1, h2, _, h4, _, _, h7⟩ :=
    start_missing_source cap conf0 fe_none s_stop_a g_stop_a 1 req_start_a "a".toList
      (by decide) rfl (by decide) rfl (by decide)
  refine ⟨o, ho, h1, h7, h2, rfl, h4, ?_⟩
  rw [h4]
  decide

/-- The source of a stopped snapshot stays and the data of the cell is that of
the snapshot when a STOP is handled and the snapshot held fits. -/
theorem stop_effect (cap : Nat) (conf : w_conf) (fe : List Char → Int) (s : Ingress) (g : Cell)
    (rc : Int) (req : Request)
    (hrc : 0 < rc) (hty : req.type = RequestType.STOP) (hs : s.t_data.size ≤ cap) :
    ∃ o, cchan_in_iter cap conf fe s g rc req = some o ∧
      o.sent = [{ requestid := req.requestid, type := ResponseType.OK, err_text := none }] ∧
      o.s.t_data = { s.t_data with cmd := Cmd.MARKET_STOP } ∧
      o.published = [o.s.t_data] ∧
      o.g.version = g.version + 1 ∧
      o.g.value.size = s.t_data.size ∧
      (∀ i, i < s.t_data.size → o.g.value.data i = s.t_data.data i) ∧
      o.g.value.cmd = g.value.cmd ∧
      o.s.running = s.running := by
  have e : cchan_in_iter cap conf fe s g rc req =
      some { s := { s with t_data := { s.t_data with cmd := Cmd.MARKET_STOP },
                           t_version := g.version + 1 },
             g := { version := g.version + 1,
                    value := t_to_g { s.t_data with cmd := Cmd.MARKET_STOP } g.value },
             sent := [{ requestid := req.requestid, type := ResponseType.OK, err_text := none }],
             published := [{ s.t_data with cmd := Cmd.MARKET_STOP }],
             signalled := false } := by
    unfold cchan_in_iter
    simp only [hrc, if_true, hty]
    rw [publish_fits cap s g { cmd := Cmd.MARKET_STOP, data := s.t_data.data, size := s.t_data.size } hs]
    rfl
  refine ⟨_, e, rfl, rfl, rfl, rfl, ?_, ?_, ?_, rfl⟩
  · show (t_to_g _ _).size = _
    rw [t_to_g_size]
  · intro i hi
    exact t_to_g_data { s.t_data with cmd := Cmd.MARKET_STOP } _ i hi
  · exact t_to_g_cmd _ _

theorem loop_not_running (cap : Nat) (conf : w_conf) (fe : List Char → Int) (s : Ingress)
    (g : Cell) (l : List (Int × Request)) (h : s.running = false) :
    cchan_in_loop cap conf fe s g l = some { s := s, g := g, sent := [], published := [] } := by
  cases l with
  | nil => rfl
  | cons m rest => simp [cchan_in_loop, h]

/-- A decoded SHUTDOWN clears `running` and sets the command of the local
snapshot. -/
theorem iter_shutdown (cap : Nat) (conf : w_conf) (fe : List Char → Int) (s : Ingress) (g : Cell)
    (rc : Int) (req : Request) (o : IterOut)
    (hrc : 0 < rc) (hty : req.type = RequestType.SHUTDOWN)
    (h : cchan_in_iter cap conf fe s g rc req = some o) :
    o.s.running = false ∧ o.s.t_data.cmd = Cmd.SHUTDOWN ∧
    o.sent = [{ requestid := req.requestid, type := ResponseType.OK, err_text := none }] := by
  unfold cchan_in_iter at h
  simp only [hrc, if_true, hty] at h
  obtain ⟨_, rfl⟩ := publish_map _ _ _ _ _ _ h
  exact ⟨rfl, rfl, rfl⟩

/-- The loop stops at a decoded SHUTDOWN: what is received after it makes no
difference to what the loop leaves behind and did. -/
theorem loop_shutdown_cons (cap : Nat) (conf : w_conf) (fe : List Char → Int) (s : Ingress)
    (g : Cell) (rc : Int) (req : Request) (post : List (Int × Request))
    (hrc : 0 < rc) (hty : req.type = RequestType.SHUTDOWN) :
    cchan_in_loop cap conf fe s g ((rc, req) :: post)
      = cchan_in_loop cap conf fe s g [(rc, req)] := by
  by_cases hrun : s.running = true
  · simp only [cchan_in_loop, hrun, if_true]
    cases hi : cchan_in_iter cap conf fe s g rc req with
    | none => rfl
    | some o =>
      have hstop := (iter_shutdown cap conf fe s g rc req o hrc hty hi).1
      simp only [loop_not_running cap conf fe o.s o.g post hstop]
  · have hf : s.running = false := by simpa using hrun
    rw [loop_not_running cap conf fe s g _ hf, loop_not_running cap conf fe s g _ hf]

/-- The loop never writes the command of the shared cell. -/
theorem loop_cell_cmd (cap : Nat) (conf : w_conf) (fe : List Char → Int)
    (l : List (Int × Request)) :
    ∀ (s : Ingress) (g : Cell) (r : LoopOut),
      cchan_in_loop cap conf fe s g l = some r → r.g.value.cmd = g.value.cmd := by
  induction l with
  | nil =>
    intro s g r h
    simp only [cchan_in_loop] at h
    cases h
    rfl
  | cons m rest ih =>
    intro s g r h
    by_cases hrun : s.running = true
    · simp only [cchan_in_loop, hrun, if_true] at h
      cases hi : cchan_in_iter cap conf fe s g m.1 m.2 with
      | none => simp [hi] at h
      | some o =>
        simp only [hi] at h
        cases hl : cchan_in_loop cap conf fe o.s o.g rest with
        | none => simp [hl] at h
        | some r2 =>
          simp only [hl] at h
          cases h
          show r2.g.value.cmd = _
          rw [ih o.s o.g r2 hl, iter_cell_cmd cap conf fe s g m.1 m.2 o hi]
    · have hf : s.running = false := by simpa using hrun
      rw [loop_not_running cap conf fe s g _ hf] at h
      cases h
      rfl

/-- C5, as the code has it: from the initial state, with 1024 bytes behind each
control record, the loop handles START with the tape file "a" and then STOP.
Both are answered with OK and no error text, the local snapshot ends with the
command MARKET_STOP, and both snapshots were passed to
`lazy_update_global_if_owner`; the cell has version 2, size 5 and the bytes of
"/t/a", but its command is INIT, not the MARKET_STOP of the snapshot.  Whatever
the size of the allocations, the cell does not get the command MARKET_STOP. -/
theorem stop_cell_keeps_command :
    (cchan_in_loop cap0 conf0 fe_all s_init g_init [(1, req_start_a), (1, req_stop)]).map
        (fun r => r.sent)
      = some [{ requestid := 1, type := ResponseType.OK, err_text := none },
              { requestid := 2, type := ResponseType.OK, err_text := none }] ∧
    (cchan_in_loop cap0 conf0 fe_all s_init g_init [(1, req_start_a), (1, req_stop)]).map
        (fun r => r.s.t_data.cmd) = some Cmd.MARKET_STOP ∧
    (cchan_in_loop cap0 conf0 fe_all s_init g_init [(1, req_start_a), (1, req_stop)]).map
        (fun r => r.published.map (fun t => t.cmd)) = some [Cmd.MARKET_RUN, Cmd.MARKET_STOP] ∧
    (cchan_in_loop cap0 conf0 fe_all s_init g_init [(1, req_start_a), (1, req_stop)]).map
        (fun r => r.g.version) = some 2 ∧
    (cchan_in_loop cap0 conf0 fe_all s_init g_init [(1, req_start_a), (1, req_stop)]).map
        (fun r => r.g.value.size) = some 5 ∧
    (cchan_in_loop cap0 conf0 fe_all s_init g_init [(1, req_start_a), (1, req_stop)]).map
        (fun r => c_string r.g.value.data 0 16) = some "/t/a".toList ∧
    (cchan_in_loop cap0 conf0 fe_all s_init g_init [(1, req_start_a), (1, req_stop)]).map
        (fun r => r.g.value.cmd) = some Cmd.INIT ∧
    (cchan_in_loop cap0 conf0 fe_all s_init g_init [(1, req_start_a), (1, req_stop)]).map
        (fun r => r.g.value.cmd)
      ≠ (cchan_in_loop cap0 conf0 fe_all s_init g_init [(1, req_start_a), (1, req_stop)]).map
        (fun r => r.s.t_data.cmd) ∧
    (∀ cap : Nat,
      (cchan_in_loop cap conf0 fe_all s_init g_init [(1, req_start_a), (1, req_stop)]).map
        (fun r => r.g.value.cmd) ≠ some Cmd.MARKET_STOP) := by
  have hall : ∀ cap : Nat,
      (cchan_in_loop cap conf0 fe_all s_init g_init [(1, req_start_a), (1, req_stop)]).map
        (fun r => r.g.value.cmd) ≠ some Cmd.MARKET_STOP := ?_
  · repeat' apply And.intro
    all_goals first | exact hall | decide
  intro cap h
  cases hl : cchan_in_loop cap conf0 fe_all s_init g_init [(1, req_start_a), (1, req_stop)] with
  | none => simp [hl] at h
  | some r =>
    have hc := loop_cell_cmd cap conf0 fe_all _ s_init g_init r hl
    simp only [hl, Option.map_some', Option.some.injEq] at h
    rw [hc] at h
    revert h
    decide

/-- C6, as the code has it: from the initial state, with 1024 bytes behind each
control record, the loop receives START with the tape file "a", SHUTDOWN, STOP,
START.  The first two are answered with OK, the local snapshot ends with the
command SHUTDOWN, `running` is cleared and the two messages after the SHUTDOWN
get no response and leave no trace; the snapshot with SHUTDOWN was passed to
`lazy_update_global_if_owner` and the cell has version 2, but its command is
INIT, not SHUTDOWN.  Whatever the size of the allocations, the cell does not
get the command SHUTDOWN. -/
theorem shutdown_cell_keeps_command :
    (cchan_in_loop cap0 conf0 fe_all s_init g_init
        [(1, req_start_a), (1, req_shutdown), (1, req_stop), (1, req_start)]).map
        (fun r => r.sent)
      = some [{ requestid := 1, type := ResponseType.OK, err_text := none },
              { requestid := 4, type := ResponseType.OK, err_text := none }] ∧
    (cchan_in_loop cap0 conf0 fe_all s_init g_init
        [(1, req_start_a), (1, req_shutdown), (1, req_stop), (1, req_start)]).map
        (fun r => r.s.t_data.cmd) = some Cmd.SHUTDOWN ∧
    (cchan_in_loop cap0 conf0 fe_all s_init g_init
        [(1, req_start_a), (1, req_shutdown), (1, req_stop), (1, req_start)]).map
        (fun r => r.s.running) = some false ∧
    (cchan_in_loop cap0 conf0 fe_all s_init g_init
        [(1, req_start_a), (1, req_shutdown), (1, req_stop), (1, req_start)]).map
        (fun r => r.published.map (fun t => t.cmd)) = some [Cmd.MARKET_RUN, Cmd.SHUTDOWN] ∧
    (cchan_in_loop cap0 conf0 fe_all s_init g_init
        [(1, req_start_a), (1, req_shutdown), (1, req_stop), (1, req_start)]).map
        (fun r => r.g.version) = some 2 ∧
    (cchan_in_loop cap0 conf0 fe_all s_init g_init
        [(1, req_start_a), (1, req_shutdown), (1, req_stop), (1, req_start)]).map
        (fun r => r.g.value.cmd) = some Cmd.INIT ∧
    (cchan_in_loop cap0 conf0 fe_all s_init g_init
        [(1, req_start_a), (1, req_shutdown), (1, req_stop), (1, req_start)]).map
        (fun r => r.g.value.cmd)
      ≠ (cchan_in_loop cap0 conf0 fe_all s_init g_init
        [(1, req_start_a), (1, req_shutdown), (1, req_stop), (1, req_start)]).map
        (fun r => r.s.t_data.cmd) ∧
    (∀ cap : Nat,
      (cchan_in_loop cap conf0 fe_all s_init g_init
        [(1, req_start_a), (1, req_shutdown), (1, req_stop), (1, req_start)]).map
        (fun r => r.g.value.cmd) ≠ some Cmd.SHUTDOWN) := by
  have hall : ∀ cap : Nat,
      (cchan_in_loop cap conf0 fe_all s_init g_init
        [(1, req_start_a), (1, req_shutdown), (1, req_stop), (1, req_start)]).map
        (fun r => r.g.value.cmd) ≠ some Cmd.SHUTDOWN := ?_
  · repeat' apply And.intro
    all_goals first | exact hall | decide
  intro cap h
  cases hl : cchan_in_loop cap conf0 fe_all s_init g_init
      [(1, req_start_a), (1, req_shutdown), (1, req_stop), (1, req_start)] with
  | none => simp [hl] at h
  | some r =>
    have hc := loop_cell_cmd cap conf0 fe_all _ s_init g_init r hl
    simp only [hl, Option.map_some', Option.some.injEq] at h
    rw [hc] at h
    revert h
    decide

/-! ## The feed worker -/

/-- No step of the feed worker changes the command of its snapshot: it assigns
none, and `g_to_t` copies none. -/
theorem market_step_cmd (g : Cell) (m : Market) :
    (market_step g m).1.t_data.cmd = m.t_data.cmd := by
  have h : (lazy_update_local_if_changed m.t_version m.t_data g g_to_t).2.cmd = m.t_data.cmd := by
    unfold lazy_update_local_if_changed
    split
    · exact g_to_t_cmd _ _
    · rfl
  unfold market_step
  cases m.pc with
  | wait => rfl
  | refresh =>
    simp only []
    split <;> exact h
  | adapter => rfl
  | check =>
    simp only []
    split <;> rfl
  | exited => rfl

theorem market_steps_cmd (gs : List Cell) :
    ∀ m : Market, (market_steps gs m).t_data.cmd = m.t_data.cmd := by
  induction gs with
  | nil => intro m; rfl
  | cons g rest ih =>
    intro m
    show (market_steps rest (market_step g m).1).t_data.cmd = _
    rw [ih, market_step_cmd]

/-- At the test for shutdown, a snapshot saying SHUTDOWN sends the worker back
to the wait. -/
theorem market_check_shutdown (g : Cell) (m : Market)
    (hpc : m.pc = Pc.check) (hcmd : m.t_data.cmd = Cmd.SHUTDOWN) :
    (market_step g m).1.pc = Pc.wait := by
  simp [market_step, hpc, hcmd]

/-- No step leads to the code after the outer loop. -/
theorem market_step_ne_exited (g : Cell) (m : Market) (hpc : m.pc ≠ Pc.exited) :
    (market_step g m).1.pc ≠ Pc.exited := by
  unfold market_step
  cases h : m.pc with
  | wait => simp
  | refresh =>
    simp only []
    split <;> simp
  | adapter => simp
  | check =>
    simp only []
    split <;> simp
  | exited => exact absurd h hpc

/-- The code after the outer loop is reached after no number of steps. -/
theorem market_steps_ne_exited (gs : List Cell) :
    ∀ m : Market, m.pc ≠ Pc.exited → (market_steps gs m).pc ≠ Pc.exited := by
  induction gs with
  | nil => intro m h; exact h
  | cons g rest ih =>
    intro m h
    exact ih _ (market_step_ne_exited g m h)

theorem err_not_found_length (tape : List Char) : (err_not_found tape).length = tape.length + 18 := by
  simp [err_not_found]

theorem long_text_size (ByteSize : Response → Nat)
    (hsz : ∀ r t, r.err_text = some t → t.length ≤ ByteSize r) (r : Response) (tape : List Char)
    (h : r.err_text = some (err_not_found tape)) (hl : 1100 ≤ tape.length) :
    1024 < ByteSize r := by
  have h1 := hsz r _ h
  rw [err_not_found_length] at h1
  omega

theorem pb_ByteSize_text (r : Response) (t : List Char) (h : r.err_text = some t) :
    t.length ≤ pb_ByteSize r := by
  simp only [pb_ByteSize, h]
  omega

/-- C10, as the code has it: a decoded START naming a file of 1100 characters
that is not there is answered with ERR and a text that holds the name (nothing
is copied into the control record on this path, whatever its size); under any
encoding whose size is at least the length of the error text the serialized
response is longer than 1024 bytes, and `_ichan_out_in_copy`, called on the
1024 byte buffer of `cchan_out_thread` with that size, copies past its end. -/
theorem egress_buffer_overflow (cap : Nat) (ByteSize : Response → Nat)
    (hsz : ∀ r t, r.err_text = some t → t.length ≤ ByteSize r) (msg : Response → Buf) :
    ∃ o res, cchan_in_iter cap conf0 fe_none s_init g_init 1 req_start_long = some o ∧
      o.sent = [res] ∧
      res.type = ResponseType.ERR ∧
      1024 < ByteSize res ∧
      cchan_out_recv (msg res) (ByteSize res) = none := by
  have hmiss : fe_none (conf0.tape_basedir ++ List.replicate 1100 'a') < 0 := by
    simp [fe_none]
  obtain ⟨o, ho, hsent, _⟩ := start_missing_source cap conf0 fe_none s_init g_init 1
    req_start_long (List.replicate 1100 'a') (by decide) rfl (by decide) rfl hmiss
  have hbig := long_text_size ByteSize hsz
    { requestid := req_start_long.requestid, type := ResponseType.ERR,
      err_text := some ("File ".toList ++ [quote] ++ (conf0.tape_basedir ++ List.replicate 1100 'a')
        ++ [quote] ++ " not found.".toList) }
    (conf0.tape_basedir ++ List.replicate 1100 'a') rfl
    (by rw [List.length_append, List.length_replicate]; omega)
  refine ⟨o, _, ho, hsent, rfl, hbig, ?_⟩
  simp only [cchan_out_recv, _ichan_out_in_copy]
  rw [if_neg (by omega)]

/-- C10 at a concrete encoding: the protocol buffers wire format. -/
theorem egress_buffer_overflow_witness :
    ∃ o res, cchan_in_iter cap0 conf0 fe_none s_init g_init 1 req_start_long = some o ∧
      o.sent = [res] ∧
      res.type = ResponseType.ERR ∧
      1024 < pb_ByteSize res ∧
      cchan_out_recv (fun _ => NUL) (pb_ByteSize res) = none :=
  egress_buffer_overflow cap0 pb_ByteSize pb_ByteSize_text (fun _ _ => NUL)

end Wineing
